import Mathlib

/-!
# Verification of the Home Video Library ("home-lang/home", packages/video)

A shallow embedding of the media-processing engine behind the C API declared
in `packages/video/include/video.h`.  The repository ships the public header
and a C usage example; the engine behind the declarations is specified in the
design document, so the operational definitions below are modelled from the
spec (each such definition says so in its doc comment), while the error-code
enumeration is transcribed directly from the header.

Conventions of the embedding:
* machine integers become `Nat`/`Int` with explicit bounds where overflow
  matters;
* fallible C calls returning `video_error_t` plus an out-handle become
  `Except VideoError α`;
* opaque handles become indices into an explicit store (`FrameStore`),
  which lets us state non-mutation and freshness of filter outputs;
* a pixel is one `Nat` packing its channel bytes (`b + 256*g + 256^2*r`
  for RGB24); rotation/crop/scale permute or resample whole pixels, which
  matches the spec's "exact pixel permutation" reading.
-/

/-- Error codes, transcribed from `video_error_t` in
`src/packages/video/include/video.h` lines 24–35. -/
inductive VideoError where
  | ok
  | invalidArgument
  | outOfMemory
  | fileNotFound
  | invalidFormat
  | unsupportedCodec
  | decodeError
  | encodeError
  | ioError
  | unknownError
  deriving DecidableEq, Repr, Fintype

/-- The integer value of each `video_error_t` constant, as written in the
header: `VIDEO_OK = 0`, `VIDEO_INVALID_ARGUMENT = -1`, …, `VIDEO_IO_ERROR = -8`,
`VIDEO_UNKNOWN_ERROR = -999`. -/
def VideoError.toInt : VideoError → Int
  | .ok => 0
  | .invalidArgument => -1
  | .outOfMemory => -2
  | .fileNotFound => -3
  | .invalidFormat => -4
  | .unsupportedCodec => -5
  | .decodeError => -6
  | .encodeError => -7
  | .ioError => -8
  | .unknownError => -999

/-- Pixel formats, from the header's comment on `video_frame_create`
(`0=RGB24, 1=RGBA32, 2=YUV420P`). -/
inductive PixelFormat where
  | rgb24
  | rgba32
  | yuv420p
  deriving DecidableEq, Repr

/-- Number of packed channels in one sample of a plane of the format. -/
def PixelFormat.channels : PixelFormat → Nat
  | .rgb24 => 3
  | .rgba32 => 4
  | .yuv420p => 1

/-- One image plane: a `w × h` grid of samples stored row-major.
Modelled from the spec: "Plane: one contiguous 2D buffer of sample data
for one color/luma/chroma component of a frame" (§3, glossary); stride
padding is abstracted away (tight packing), since no claim concerns it. -/
@[ext]
structure Plane where
  w : Nat
  h : Nat
  data : List Nat
  deriving DecidableEq, Repr

/-- Sample of a plane at linear index `i` (row-major), 0 outside. -/
def Plane.get (p : Plane) (i : Nat) : Nat := p.data.getD i 0

/-- A plane is well formed when it stores exactly `w * h` samples. -/
def Plane.wf (p : Plane) : Prop := p.data.length = p.w * p.h

instance (p : Plane) : Decidable p.wf := by unfold Plane.wf; infer_instance

/-- A video frame.  Modelled from the spec: "Frame: width, height (pixels,
>0), pixel format, 1–3 planes each with an owned byte buffer" (§3). -/
@[ext]
structure Frame where
  width : Nat
  height : Nat
  format : PixelFormat
  planes : List Plane
  deriving DecidableEq, Repr

/-- `video_frame_width` (header lines 199–204): returns the frame's width. -/
def video_frame_width (f : Frame) : Nat := f.width

/-- `video_frame_height` (header lines 206–211): returns the frame's height. -/
def video_frame_height (f : Frame) : Nat := f.height

/-- The plane layout dictated by a pixel format for a `width × height` frame.
Modelled from the spec: "plane count and per-plane dimensions are fully
determined by pixel format and frame width/height" (§3); YUV420P stores
chroma at half resolution in each direction (§ glossary, 4:2:0). -/
def PixelFormat.planeDims (fmt : PixelFormat) (width height : Nat) : List (Nat × Nat) :=
  match fmt with
  | .rgb24 => [(width, height)]
  | .rgba32 => [(width, height)]
  | .yuv420p => [(width, height), (width / 2, height / 2), (width / 2, height / 2)]

/-- Frame well-formedness.  Modelled from the spec (§3): positive
dimensions, planes exactly as dictated by the format (for YUV420P this
requires even dimensions so that chroma is exactly half resolution), and
each plane carrying a full buffer. -/
def Frame.wf (f : Frame) : Prop :=
  0 < f.width ∧ 0 < f.height ∧
  (f.format = .yuv420p → f.width % 2 = 0 ∧ f.height % 2 = 0) ∧
  f.planes.map (fun p => (p.w, p.h)) = f.format.planeDims f.width f.height ∧
  ∀ p ∈ f.planes, p.wf

instance (f : Frame) : Decidable f.wf := by unfold Frame.wf; infer_instance

/-! ## Rotation (video_filter_rotate, header lines 288–295)

Modelled from the spec: "Rotate(src, angle): angle ∈ {0°, 90°, 180°, 270°};
90°/270° swap width and height; implemented as an exact pixel permutation
(no interpolation, no loss)" (§4.1); the header maps angle codes
0/1/2/3 → 0°/90°/180°/270°. -/

/-- Rotate one plane 90° clockwise: the destination sample at row `r`,
column `c` (destination dimensions `h × w`) is the source sample at
row `h - 1 - c`, column `r`. -/
def Plane.rot90 (p : Plane) : Plane :=
  { w := p.h
    h := p.w
    data := (List.range (p.w * p.h)).map
      (fun i => p.get ((p.h - 1 - i % p.h) * p.w + i / p.h)) }

/-- Rotate a whole frame 90° clockwise: width and height swap and every
plane is rotated at its own (possibly subsampled) dimensions. -/
def Frame.rot90 (f : Frame) : Frame :=
  { width := f.height
    height := f.width
    format := f.format
    planes := f.planes.map Plane.rot90 }

/-- `video_filter_rotate` (header lines 288–295).  Modelled from the spec:
angle code 0 is the identity copy, 1/2/3 rotate clockwise by 90°/180°/270°
(iterated exact pixel permutation); any other code is a malformed argument. -/
def video_filter_rotate (f : Frame) (angle : Int) : Except VideoError Frame :=
  if angle = 0 then .ok f
  else if angle = 1 then .ok f.rot90
  else if angle = 2 then .ok f.rot90.rot90
  else if angle = 3 then .ok f.rot90.rot90.rot90
  else .error .invalidArgument

/-! ## Scaling (video_filter_scale, header lines 246–256)

Modelled from the spec (§4.1): "Scale(src, dst_width, dst_height, algorithm)":
algorithm ∈ {Nearest, Bilinear, Bicubic, Lanczos} (header codes 0/1/2/3);
Nearest selects the nearest source pixel, the others are increasingly wide
reconstruction kernels; each plane of a planar format is scaled with the same
algorithm against its own (halved for 4:2:0 chroma) target dimensions; a zero
destination width or height fails with InvalidArgument. -/

/-- Scale algorithms, from the header comment on `video_filter_scale`
(`0=Nearest, 1=Bilinear, 2=Bicubic, 3=Lanczos`). -/
inductive ScaleAlg where
  | nearest
  | bilinear
  | bicubic
  | lanczos
  deriving DecidableEq, Repr

/-- Decode the C `algorithm` code. -/
def ScaleAlg.ofCode : Int → Option ScaleAlg
  | 0 => some .nearest
  | 1 => some .bilinear
  | 2 => some .bicubic
  | 3 => some .lanczos
  | _ => none

/-- Nearest-neighbour resampling of one plane to `W × H`: destination
sample `(r, c)` is source sample `(r * h / H, c * w / W)`. -/
def Plane.scaleNearest (p : Plane) (W H : Nat) : Plane :=
  { w := W
    h := H
    data := (List.range (W * H)).map
      (fun i => p.get ((i / W * p.h / H) * p.w + i % W * p.w / W)) }

/-- Clamp a possibly-negative source coordinate into `[0, hi]`. -/
def clampIdx (n : Int) (hi : Nat) : Nat := min n.toNat hi

/-- Channel `k` of a packed sample value (8 bits per channel). -/
def chanOf (v k : Nat) : Nat := v / 256 ^ k % 256

/-- Clamped 2D sample access on a plane. -/
def Plane.atRC (p : Plane) (r c : Nat) : Nat :=
  p.get (min r (p.h - 1) * p.w + min c (p.w - 1))

/-- Sum `f 0 + … + f (n-1)` over rationals. -/
def tapsum (n : Nat) (f : Nat → ℚ) : ℚ := ((List.range n).map f).sum

/-- Triangle (tent) reconstruction kernel: the bilinear weight. -/
def bilinearKernel (t : ℚ) : ℚ := if |t| < 1 then 1 - |t| else 0

/-- Catmull-Rom cubic reconstruction kernel (`a = -1/2`): the standard
bicubic weight. -/
def cubicKernel (t : ℚ) : ℚ :=
  let x := |t|
  if x < 1 then (3 / 2) * x ^ 3 - (5 / 2) * x ^ 2 + 1
  else if x < 2 then (-1 / 2) * x ^ 3 + (5 / 2) * x ^ 2 - 4 * x + 2
  else 0

/-- Rational Taylor approximation of `sin`, used to evaluate the Lanczos
windowed sinc with exact arithmetic (the spec fixes only that Lanczos is a
wide windowed-sinc kernel, not its floating-point numerics). -/
def ratSin (x : ℚ) : ℚ :=
  x - x ^ 3 / 6 + x ^ 5 / 120 - x ^ 7 / 5040 + x ^ 9 / 362880

/-- Rational approximation of π for the sinc evaluation. -/
def ratPi : ℚ := 314159265 / 100000000

/-- Normalized sinc, via the rational approximations above. -/
def sincApprox (x : ℚ) : ℚ :=
  if x = 0 then 1 else ratSin (ratPi * x) / (ratPi * x)

/-- Lanczos-3 windowed-sinc reconstruction kernel. -/
def lanczosKernel (t : ℚ) : ℚ :=
  if |t| < 3 then sincApprox t * sincApprox (t / 3) else 0

/-- Centre of destination index `i` mapped back into source coordinates
(the standard half-pixel-centre convention). -/
def srcCoord (srcN dstN i : Nat) : ℚ :=
  ((i : ℚ) + 1 / 2) * srcN / dstN - 1 / 2

/-- Round a rational channel value to an 8-bit sample. -/
def roundChan (v : ℚ) : Nat := min (Int.toNat ⌊v + 1 / 2⌋) 255

/-- Generic separable kernel resampling of one plane to `W × H`, applied
independently to each of the `nch` packed channels: for each destination
sample the `2·rad × 2·rad` source taps around the mapped centre are
weighted by `ker` and renormalized. -/
def Plane.scaleKernel (ker : ℚ → ℚ) (rad nch : Nat) (p : Plane) (W H : Nat) : Plane :=
  { w := W
    h := H
    data := (List.range (W * H)).map (fun i =>
      let sy := srcCoord p.h H (i / W)
      let sx := srcCoord p.w W (i % W)
      let y0 : Int := ⌊sy⌋
      let x0 : Int := ⌊sx⌋
      let wy : Nat → ℚ := fun dy => ker (sy - ((y0 - rad + 1 + dy : Int) : ℚ))
      let wx : Nat → ℚ := fun dx => ker (sx - ((x0 - rad + 1 + dx : Int) : ℚ))
      let den := tapsum (2 * rad) wy * tapsum (2 * rad) wx
      ((List.range nch).map (fun k =>
        let num := tapsum (2 * rad) (fun dy => tapsum (2 * rad) (fun dx =>
          wy dy * wx dx *
            (chanOf (p.atRC (clampIdx (y0 - rad + 1 + dy) (p.h - 1))
                            (clampIdx (x0 - rad + 1 + dx) (p.w - 1))) k : Nat)))
        roundChan (num / den) * 256 ^ k)).sum) }

/-- Resample one plane with the chosen algorithm. -/
def Plane.scaleAlg (p : Plane) (alg : ScaleAlg) (nch W H : Nat) : Plane :=
  match alg with
  | .nearest => p.scaleNearest W H
  | .bilinear => p.scaleKernel bilinearKernel 1 nch W H
  | .bicubic => p.scaleKernel cubicKernel 2 nch W H
  | .lanczos => p.scaleKernel lanczosKernel 3 nch W H

/-- `video_filter_scale` (header lines 246–256).  Modelled from the spec
(§4.1): zero destination width/height fails with InvalidArgument, an
unknown algorithm code is likewise a malformed argument; otherwise each
plane is resampled against the target layout of the frame's format. -/
def video_filter_scale (f : Frame) (dstWidth dstHeight : Nat) (algorithm : Int) :
    Except VideoError Frame :=
  if dstWidth = 0 ∨ dstHeight = 0 then .error .invalidArgument
  else
    match ScaleAlg.ofCode algorithm with
    | none => .error .invalidArgument
    | some alg =>
        .ok { width := dstWidth
              height := dstHeight
              format := f.format
              planes := (f.planes.zip (f.format.planeDims dstWidth dstHeight)).map
                (fun pq => pq.1.scaleAlg alg f.format.channels pq.2.1 pq.2.2) }

/-! ## Cropping (video_filter_crop, header lines 258–269)

Modelled from the spec (§4.1): "Crop(src, x, y, width, height): extracts the
rectangle [x, x+width) × [y, y+height); fails with InvalidArgument if the
rectangle exceeds source bounds or width/height is 0"; each plane of a planar
format is cropped at its own halved scale with offsets rounded to the
subsampling boundary. -/

/-- Extract the `W × H` rectangle at offset `(x, y)` of one plane. -/
def Plane.crop (p : Plane) (x y W H : Nat) : Plane :=
  { w := W
    h := H
    data := (List.range (W * H)).map
      (fun i => p.get ((y + i / W) * p.w + (x + i % W))) }

/-- Per-plane crop rectangles of a format (chroma halved for 4:2:0). -/
def PixelFormat.cropRects (fmt : PixelFormat) (x y W H : Nat) :
    List (Nat × Nat × Nat × Nat) :=
  match fmt with
  | .yuv420p => [(x, y, W, H), (x / 2, y / 2, W / 2, H / 2), (x / 2, y / 2, W / 2, H / 2)]
  | _ => [(x, y, W, H)]

/-- `video_filter_crop` (header lines 258–269). -/
def video_filter_crop (f : Frame) (x y width height : Nat) : Except VideoError Frame :=
  if width = 0 ∨ height = 0 ∨ f.width < x + width ∨ f.height < y + height then
    .error .invalidArgument
  else
    .ok { width := width
          height := height
          format := f.format
          planes := (f.planes.zip (f.format.cropRects x y width height)).map
            (fun pr => pr.1.crop pr.2.1 pr.2.2.1 pr.2.2.2.1 pr.2.2.2.2) }

/-! ## Grayscale (video_filter_grayscale, header lines 271–277)

Modelled from the spec (§4.1): "Grayscale(src): converts to a single-luma
representation using perceptual luma weighting (standard-defined per-channel
weights)" — Rec. 601 weights 0.299/0.587/0.114 — "for already-planar-luma
formats this may be a near-no-op that discards chroma information by setting
it to the neutral mid-value" (128). -/

/-- Rec. 601 luma of a packed pixel (channel 0 = blue, 1 = green, 2 = red). -/
def lumaOf (v : Nat) : Nat :=
  (299 * chanOf v 2 + 587 * chanOf v 1 + 114 * chanOf v 0) / 1000

/-- Grayscale one packed pixel, preserving the alpha channel of RGBA32. -/
def grayPixel (fmt : PixelFormat) (v : Nat) : Nat :=
  match fmt with
  | .rgb24 => lumaOf v * 65536 + lumaOf v * 256 + lumaOf v
  | .rgba32 => chanOf v 3 * 16777216 + lumaOf v * 65536 + lumaOf v * 256 + lumaOf v
  | .yuv420p => v

/-- `video_filter_grayscale` (header lines 271–277). -/
def video_filter_grayscale (f : Frame) : Except VideoError Frame :=
  .ok { f with planes :=
    match f.format with
    | .yuv420p =>
        f.planes.enum.map (fun pi =>
          if pi.1 = 0 then pi.2
          else { pi.2 with data := pi.2.data.map (fun _ => 128) })
    | fmt => f.planes.map (fun p => { p with data := p.data.map (grayPixel fmt) }) }

/-! ## Blur (video_filter_blur, header lines 279–286)

Modelled from the spec (§4.1): "Blur(src, sigma): separable Gaussian blur
with kernel radius derived from sigma (commonly ceil(3*sigma)); sigma ≤ 0
fails with InvalidArgument; applies independently per plane."  The C `float`
sigma is embedded as an exact rational; the Gaussian bell is realized by its
standard binomial integer approximation `C(2R, R+d) / 4^R`, applied
separately to each packed channel with clamped edge sampling. -/

/-- Kernel radius `⌈3σ⌉`. -/
def blurRadius (sigma : ℚ) : Nat := (Int.ceil (3 * sigma)).toNat

/-- One separable binomial-blur pass over a plane (horizontal if
`horiz`, else vertical), per packed channel. -/
def Plane.blurPass (p : Plane) (horiz : Bool) (nch R : Nat) : Plane :=
  { w := p.w
    h := p.h
    data := (List.range (p.w * p.h)).map (fun i =>
      let r := i / p.w
      let c := i % p.w
      ((List.range nch).map (fun k =>
        (((List.range (2 * R + 1)).map (fun (t : Nat) =>
          let rr := if horiz then r else clampIdx ((r : Int) + (t : Int) - R) (p.h - 1)
          let cc := if horiz then clampIdx ((c : Int) + (t : Int) - R) (p.w - 1) else c
          Nat.choose (2 * R) t * chanOf (p.get (rr * p.w + cc)) k)).sum / 4 ^ R)
          * 256 ^ k)).sum) }

/-- `video_filter_blur` (header lines 279–286). -/
def video_filter_blur (f : Frame) (sigma : ℚ) : Except VideoError Frame :=
  if sigma ≤ 0 then .error .invalidArgument
  else
    .ok { f with planes := f.planes.map (fun p =>
      (p.blurPass true f.format.channels (blurRadius sigma)).blurPass false
        f.format.channels (blurRadius sigma)) }

/-! ## The filter calls as operations on a handle store

The C API passes frames as opaque handles (`void*`).  Modelled from the
spec (§6, §9): a handle is an index into an arena of frames; a filter call
reads the source slot, never writes any existing slot, and on success
appends the freshly allocated output frame, returning its new handle.
Allocation always succeeds in the model, so the OutOfMemory branch of the
spec's failure policy does not arise. -/

/-- One filter invocation, as dispatched by the five
`video_filter_*` entry points. -/
inductive FilterOp where
  | scale (dstWidth dstHeight : Nat) (algorithm : Int)
  | crop (x y width height : Nat)
  | grayscale
  | blur (sigma : ℚ)
  | rotate (angle : Int)

/-- Run a filter on a source frame, yielding the output frame or the
error of the failed call. -/
def runFilter : FilterOp → Frame → Except VideoError Frame
  | .scale w h alg, f => video_filter_scale f w h alg
  | .crop x y w h, f => video_filter_crop f x y w h
  | .grayscale, f => video_filter_grayscale f
  | .blur sigma, f => video_filter_blur f sigma
  | .rotate angle, f => video_filter_rotate f angle

/-- The arena of live frames; a handle is an index into it. -/
abbrev FrameStore := List Frame

/-- A filter call at the API boundary: look up the source handle, run the
filter, and on success append the new output frame, handing back its
handle. -/
def applyFilter (s : FrameStore) (op : FilterOp) (src : Nat) :
    FrameStore × Except VideoError Nat :=
  match s[src]? with
  | none => (s, .error .invalidArgument)
  | some f =>
      match runFilter op f with
      | .error e => (s, .error e)
      | .ok dst => (List.append s [dst], .ok (List.length s))


/-- A small well-formed YUV420P frame used to instantiate theorems. -/
def demoFrameYuv : Frame :=
  ⟨2, 2, .yuv420p, [⟨2, 2, [10, 20, 30, 40]⟩, ⟨1, 1, [50]⟩, ⟨1, 1, [60]⟩]⟩

/-- A small well-formed RGB24 frame used to instantiate theorems. -/
def demoFrameRgb : Frame :=
  ⟨4, 4, .rgb24, [⟨4, 4, List.range 16⟩]⟩

/-! ## Thumbnail extraction (video_thumbnail_extract, header lines 359–369)

Modelled from the spec (§4.5): "Extract(path, timestamp, width, height) ->
Frame: opens the container, locates the first video stream, decodes the
frame nearest to timestamp, then applies Scale to the requested dimensions;
timestamp beyond stream duration clamps to the last decodable frame rather
than failing."  The demuxer and decoder are abstracted into the decoded
first video stream: a list of frames with presentation timestamps in
microseconds (`int64_t` in the header), in stream order. -/

/-- The decodable frame whose timestamp is nearest to the target,
scanning the stream and keeping the closer candidate. -/
def nearestFrame (ts : Int) : List (Int × Frame) → Option (Int × Frame)
  | [] => none
  | e :: rest =>
    match nearestFrame ts rest with
    | none => some e
    | some b => if |ts - e.1| < |ts - b.1| then some e else some b

/-- `video_thumbnail_extract` (header lines 359–369), on a decoded first
video stream: pick the frame nearest the timestamp and scale it (bilinear)
to the requested dimensions; an empty stream is a decode failure. -/
def video_thumbnail_extract (stream : List (Int × Frame)) (timestampUs : Int)
    (width height : Nat) : Except VideoError Frame :=
  match nearestFrame timestampUs stream with
  | none => .error .decodeError
  | some e => video_filter_scale e.2 width height 1

/-! ## SRT parsing and VTT conversion (header lines 335–353)

Modelled from the spec (§4.4): "ParseSRT(bytes) -> ordered sequence of Cue:
splits on blank-line-delimited blocks, each block = sequence number line,
`start --> end` timestamp line (format `HH:MM:SS,mmm`), then one or more
text lines; a malformed block is skipped and counted, not fatal, unless
zero valid cues result, in which case it fails with InvalidFormat."
Bytes are embedded as (ASCII) characters; a block additionally honours the
data-model invariant "start ≤ end" (§3); `video_subtitle_parse_srt` returns
the parsed cues (the C call reports their count). -/

/-- One timed subtitle cue (§3): sequence number, start and end times in
milliseconds, and one or more text lines. -/
structure Cue where
  seqNo : Nat
  startMs : Nat
  endMs : Nat
  text : List (List Char)
  deriving DecidableEq, Repr

/-- ASCII digit test. -/
def isDigit (c : Char) : Bool := decide ('0' ≤ c ∧ c ≤ '9')

/-- Value of an ASCII digit. -/
def digitVal (c : Char) : Nat := c.toNat - 48

/-- Split into lines at every newline, accumulating the current line. -/
def splitLinesAux : List Char → List Char → List (List Char)
  | [], acc => [acc.reverse]
  | '\n' :: rest, acc => acc.reverse :: splitLinesAux rest []
  | c :: rest, acc => splitLinesAux rest (c :: acc)

/-- Drop a carriage return left at the end of a line by CRLF input. -/
def stripCR (l : List Char) : List Char :=
  if l.getLast? = some '\r' then l.dropLast else l

/-- The input split into lines ('\n' separators, tolerant of CRLF). -/
def splitLines (d : List Char) : List (List Char) := (splitLinesAux d []).map stripCR

/-- Group a line into the running block list: a blank line opens a new
block, any other line joins the front block. -/
def addLine (l : List Char) (acc : List (List (List Char))) : List (List (List Char)) :=
  if l.isEmpty then [] :: acc
  else
    match acc with
    | [] => [[l]]
    | b :: bs => (l :: b) :: bs

/-- The blank-line-delimited blocks of the input, in input order. -/
def blocksOf (d : List Char) : List (List (List Char)) :=
  ((splitLines d).foldr addLine []).filter (fun b => !b.isEmpty)

/-- Parse a sequence-number line: one or more digits. -/
def parseSeq (l : List Char) : Option Nat :=
  if !l.isEmpty && l.all isDigit then
    some (l.foldl (fun n c => 10 * n + digitVal c) 0)
  else none

/-- Parse one `HH:MM:SS,mmm` timestamp into milliseconds. -/
def parseTimePart : List Char → Option Nat
  | [h1, h2, ':', m1, m2, ':', s1, s2, ',', x1, x2, x3] =>
    if [h1, h2, m1, m2, s1, s2, x1, x2, x3].all isDigit then
      some ((digitVal h1 * 10 + digitVal h2) * 3600000 +
        (digitVal m1 * 10 + digitVal m2) * 60000 +
        (digitVal s1 * 10 + digitVal s2) * 1000 +
        digitVal x1 * 100 + digitVal x2 * 10 + digitVal x3)
    else none
  | _ => none

/-- Parse a `start --> end` timestamp line. -/
def parseTimeLine (l : List Char) : Option (Nat × Nat) :=
  if l.length = 29 ∧ (l.drop 12).take 5 = (" --> ".toList) then
    match parseTimePart (l.take 12), parseTimePart (l.drop 17) with
    | some a, some b => some (a, b)
    | _, _ => none
  else none

/-- Parse one block: sequence number line, timestamp line, then one or
more text lines; the cue must satisfy the data-model invariant
start ≤ end. -/
def parseBlock (b : List (List Char)) : Option Cue :=
  match b with
  | seqLine :: timeLine :: rest =>
    if rest.isEmpty then none
    else
      match parseSeq seqLine, parseTimeLine timeLine with
      | some n, some se => if se.1 ≤ se.2 then some ⟨n, se.1, se.2, rest⟩ else none
      | _, _ => none
  | _ => none

/-- Scan the blocks in order, keeping the valid cues and counting the
skipped malformed blocks. -/
def parseBlocksLoop : List (List (List Char)) → List Cue × Nat
  | [] => ([], 0)
  | b :: bs =>
    let r := parseBlocksLoop bs
    match parseBlock b with
    | some c => (c :: r.1, r.2)
    | none => (r.1, r.2 + 1)

/-- `video_subtitle_parse_srt` (header lines 335–342): best-effort parse;
fails with InvalidFormat exactly when no valid cue results. -/
def video_subtitle_parse_srt (d : List Char) : Except VideoError (List Cue) :=
  let r := parseBlocksLoop (blocksOf d)
  if r.1.isEmpty then .error .invalidFormat else .ok r.1

/-- Left-pad a decimal rendering with zeros to `k` digits. -/
def padDigits (k n : Nat) : List Char :=
  let s := Nat.toDigits 10 n
  List.replicate (k - s.length) '0' ++ s

/-- Render a millisecond timestamp as `HH:MM:SS<sep>mmm`. -/
def formatTime (sep : Char) (t : Nat) : List Char :=
  padDigits 2 (t / 3600000) ++ [':'] ++ padDigits 2 (t / 60000 % 60) ++ [':'] ++
    padDigits 2 (t / 1000 % 60) ++ [sep] ++ padDigits 3 (t % 1000)

/-- Join text lines with newlines. -/
def joinLines : List (List Char) → List Char
  | [] => []
  | [l] => l
  | l :: ls => l ++ '\n' :: joinLines ls

/-- Render one cue in WebVTT form: the period millisecond separator
replaces SRT's comma. -/
def renderCueVtt (c : Cue) : List Char :=
  Nat.toDigits 10 c.seqNo ++ '\n' ::
    (formatTime '.' c.startMs ++ (" --> ".toList) ++ formatTime '.' c.endMs) ++
    '\n' :: joinLines c.text ++ ['\n']

/-- The WebVTT header line. -/
def vttHeader : List Char := ("WEBVTT".toList) ++ ['\n']

/-- Render a parsed cue sequence as a WebVTT document: header line, then
each cue after a blank separator line, in order. -/
def renderVtt (cs : List Cue) : List Char :=
  vttHeader ++ (cs.map (fun c => '\n' :: renderCueVtt c)).flatten

/-- `video_subtitle_srt_to_vtt` (header lines 344–353).  Modelled from the
spec (§4.4): reparse with ParseSRT, re-emit with the WebVTT header, the
comma-to-period separator conversion and the same cue order; fails with
InvalidFormat if parsing fails. -/
def video_subtitle_srt_to_vtt (d : List Char) : Except VideoError (List Char) :=
  match video_subtitle_parse_srt d with
  | .error _ => .error .invalidFormat
  | .ok cs => .ok (renderVtt cs)

/-- The spec's own two-cue SRT sample (§8). -/
def demoSrt : List Char :=
  ("1\n00:00:01,000 --> 00:00:02,500\nHello\n\n2\n00:00:03,000 --> 00:00:04,000\nWorld\n").toList

/-! ## WAV audio load and save (header lines 116–183)

Modelled from the spec (§4.2): "Load parses a container/bitstream header to
recover sample rate, channel count, and sample encoding, then fully decodes
into the buffer's sample representation"; "Save is Encode(WAV) followed by a
file write"; "Lossless targets (WAV, …) must round-trip sample values
exactly for the subset of formats the engine itself produced"; and §6:
"Persisted formats the core must read/write bit-compatibly: a WAV container".
The engine's own WAV image is the canonical 44-byte RIFF/WAVE header with a
16-byte PCM `fmt ` chunk (16-bit little-endian interleaved samples) followed
by the `data` chunk; the file write of `Save` is abstracted to the byte
image it writes. -/

/-- An audio buffer (§3): sample rate, channel count, and interleaved
16-bit integer samples. -/
structure AudioBuffer where
  sampleRate : Nat
  channels : Nat
  samples : List Int
  deriving DecidableEq, Repr

/-- `video_audio_sample_rate` (header lines 158–163). -/
def video_audio_sample_rate (a : AudioBuffer) : Nat := a.sampleRate

/-- `video_audio_channels` (header lines 165–170). -/
def video_audio_channels (a : AudioBuffer) : Nat := a.channels

/-- `video_audio_total_samples` (header lines 172–177): per-channel
sample count. -/
def video_audio_total_samples (a : AudioBuffer) : Nat :=
  a.samples.length / a.channels

/-- Audio buffer well-formedness (§3): positive rate, 1–255 channels,
every channel the same length, 16-bit sample range, and the size fields of
its WAV image within `uint32`. -/
def AudioBuffer.wf (a : AudioBuffer) : Prop :=
  0 < a.sampleRate ∧ 1 ≤ a.channels ∧ a.channels ≤ 255 ∧
  a.samples.length % a.channels = 0 ∧
  (∀ s ∈ a.samples, -32768 ≤ s ∧ s < 32768) ∧
  36 + 2 * a.samples.length < 4294967296 ∧
  a.sampleRate * a.channels * 2 < 4294967296

instance (a : AudioBuffer) : Decidable a.wf := by unfold AudioBuffer.wf; infer_instance

/-- Two little-endian bytes of a 16-bit value. -/
def le16 (n : Nat) : List Nat := [n % 256, n / 256 % 256]

/-- Four little-endian bytes of a 32-bit value. -/
def le32 (n : Nat) : List Nat :=
  [n % 256, n / 256 % 256, n / 65536 % 256, n / 16777216 % 256]

/-- Read two little-endian bytes. -/
def readU16 (b0 b1 : Nat) : Nat := b0 + 256 * b1

/-- Read four little-endian bytes. -/
def readU32 (b0 b1 b2 b3 : Nat) : Nat :=
  b0 + 256 * b1 + 65536 * b2 + 16777216 * b3

/-- A 16-bit signed sample as its unsigned two's-complement image. -/
def sampleToU16 (s : Int) : Nat := ((s + 65536) % 65536).toNat

/-- Recover a signed sample from its unsigned two's-complement image. -/
def u16ToSample (u : Nat) : Int :=
  if u < 32768 then (u : Int) else (u : Int) - 65536

/-- Interleaved samples as little-endian PCM16 bytes. -/
def encodeSamples : List Int → List Nat
  | [] => []
  | s :: rest => le16 (sampleToU16 s) ++ encodeSamples rest

/-- Parse little-endian PCM16 bytes back into samples; fails on an odd
byte count or a non-byte value. -/
def decodeSamples : List Nat → Option (List Int)
  | [] => some []
  | [_] => none
  | b0 :: b1 :: rest =>
    if b0 < 256 ∧ b1 < 256 then
      (decodeSamples rest).map (fun l => u16ToSample (readU16 b0 b1) :: l)
    else none

/-- All entries are bytes. -/
def bytesOk (l : List Nat) : Prop := ∀ b ∈ l, b < 256

instance (l : List Nat) : Decidable (bytesOk l) := by unfold bytesOk; infer_instance

/-- The canonical 44-byte RIFF/WAVE PCM16 header of a buffer's image. -/
def wavHeaderBytes (a : AudioBuffer) : List Nat :=
  [82, 73, 70, 70] ++ le32 (36 + (encodeSamples a.samples).length) ++
  [87, 65, 86, 69, 102, 109, 116, 32] ++ le32 16 ++ le16 1 ++ le16 a.channels ++
  le32 a.sampleRate ++ le32 (a.sampleRate * a.channels * 2) ++
  le16 (a.channels * 2) ++ le16 16 ++ [100, 97, 116, 97] ++
  le32 (encodeSamples a.samples).length

/-- The WAV image of an audio buffer: canonical RIFF/WAVE header, PCM16
format chunk, data chunk with interleaved little-endian samples. -/
def encodeWav (a : AudioBuffer) : List Nat :=
  wavHeaderBytes a ++ encodeSamples a.samples

/-- Header byte at offset `i`; reads past the end yield the non-byte
marker 256, which every byte-level check rejects. -/
def hdrByte (d : List Nat) (i : Nat) : Nat := d.getD i 256

/-- The fixed bytes of the canonical header: `RIFF`, `WAVE`, `fmt ` with
chunk size 16 and PCM format tag 1, 16 bits per sample, and `data`. -/
def wavMagicOk (d : List Nat) : Prop :=
  hdrByte d 0 = 82 ∧ hdrByte d 1 = 73 ∧ hdrByte d 2 = 70 ∧ hdrByte d 3 = 70 ∧
  hdrByte d 8 = 87 ∧ hdrByte d 9 = 65 ∧ hdrByte d 10 = 86 ∧ hdrByte d 11 = 69 ∧
  hdrByte d 12 = 102 ∧ hdrByte d 13 = 109 ∧ hdrByte d 14 = 116 ∧ hdrByte d 15 = 32 ∧
  hdrByte d 16 = 16 ∧ hdrByte d 17 = 0 ∧ hdrByte d 18 = 0 ∧ hdrByte d 19 = 0 ∧
  hdrByte d 20 = 1 ∧ hdrByte d 21 = 0 ∧
  hdrByte d 34 = 16 ∧ hdrByte d 35 = 0 ∧
  hdrByte d 36 = 100 ∧ hdrByte d 37 = 97 ∧ hdrByte d 38 = 116 ∧ hdrByte d 39 = 97

/-- The header's variable fields are genuine bytes. -/
def wavFieldBytesOk (d : List Nat) : Prop :=
  hdrByte d 4 < 256 ∧ hdrByte d 5 < 256 ∧ hdrByte d 6 < 256 ∧ hdrByte d 7 < 256 ∧
  hdrByte d 22 < 256 ∧ hdrByte d 23 < 256 ∧
  hdrByte d 24 < 256 ∧ hdrByte d 25 < 256 ∧ hdrByte d 26 < 256 ∧ hdrByte d 27 < 256 ∧
  hdrByte d 28 < 256 ∧ hdrByte d 29 < 256 ∧ hdrByte d 30 < 256 ∧ hdrByte d 31 < 256 ∧
  hdrByte d 32 < 256 ∧ hdrByte d 33 < 256 ∧
  hdrByte d 40 < 256 ∧ hdrByte d 41 < 256 ∧ hdrByte d 42 < 256 ∧ hdrByte d 43 < 256

/-- The channel-count field of the header. -/
def wavChannels (d : List Nat) : Nat := readU16 (hdrByte d 22) (hdrByte d 23)

/-- The sample-rate field of the header. -/
def wavRate (d : List Nat) : Nat :=
  readU32 (hdrByte d 24) (hdrByte d 25) (hdrByte d 26) (hdrByte d 27)

/-- Consistency of the header's size, rate and channel fields with the
payload: RIFF size, data size, byte rate, block align, channel range,
positive rate, and a payload that is whole frames. -/
def wavSizesOk (d : List Nat) : Prop :=
  readU32 (hdrByte d 4) (hdrByte d 5) (hdrByte d 6) (hdrByte d 7)
    = 36 + (d.length - 44) ∧
  readU32 (hdrByte d 40) (hdrByte d 41) (hdrByte d 42) (hdrByte d 43)
    = d.length - 44 ∧
  readU32 (hdrByte d 28) (hdrByte d 29) (hdrByte d 30) (hdrByte d 31)
    = wavRate d * wavChannels d * 2 ∧
  readU16 (hdrByte d 32) (hdrByte d 33) = wavChannels d * 2 ∧
  1 ≤ wavChannels d ∧ wavChannels d ≤ 255 ∧ 0 < wavRate d ∧
  (d.length - 44) % (wavChannels d * 2) = 0

instance (d : List Nat) : Decidable (wavMagicOk d) := by unfold wavMagicOk; infer_instance

instance (d : List Nat) : Decidable (wavFieldBytesOk d) := by
  unfold wavFieldBytesOk; infer_instance

instance (d : List Nat) : Decidable (wavSizesOk d) := by unfold wavSizesOk; infer_instance

/-- Parse a WAV byte image: the canonical header layout with consistent
size, rate and channel fields, then the PCM16 payload. -/
def decodeWav (d : List Nat) : Option AudioBuffer :=
  if 44 ≤ d.length ∧ wavMagicOk d ∧ wavFieldBytesOk d ∧ wavSizesOk d then
    (decodeSamples (d.drop 44)).map (fun ss => ⟨wavRate d, wavChannels d, ss⟩)
  else none

/-- `video_audio_load` / `video_audio_load_from_memory` (header lines
116–131), on the WAV byte image: an unparseable image is InvalidFormat. -/
def video_audio_load (d : List Nat) : Except VideoError AudioBuffer :=
  match decodeWav d with
  | none => .error .invalidFormat
  | some a => .ok a

/-- `video_audio_save` (header lines 133–139): Encode(WAV), abstracted to
the byte image written to the file. -/
def video_audio_save (a : AudioBuffer) : List Nat := encodeWav a

/-- A two-frame decoded stream used to instantiate theorems. -/
def demoStream : List (Int × Frame) := [(0, demoFrameYuv), (1000000, demoFrameRgb)]

/-- The WAV image of the buffer ⟨8000 Hz, 1 channel, samples [0, -1]⟩. -/
def demoWavBytes : List Nat :=
  [82, 73, 70, 70, 40, 0, 0, 0, 87, 65, 86, 69, 102, 109, 116, 32,
   16, 0, 0, 0, 1, 0, 1, 0, 64, 31, 0, 0, 128, 62, 0, 0,
   2, 0, 16, 0, 100, 97, 116, 97, 4, 0, 0, 0, 0, 0, 255, 255]

/-! # Theorems -/

/-! ### Rotation lemmas -/

theorem getD_range_map (f : Nat → Nat) (n i : Nat) (h : i < n) :
    ((List.range n).map f).getD i 0 = f i := by
  rw [List.getD_eq_getElem?_getD, List.getElem?_map, List.getElem?_range h]
  rfl

theorem Plane.rot90_w (p : Plane) : p.rot90.w = p.h := rfl

theorem Plane.rot90_h (p : Plane) : p.rot90.h = p.w := rfl

theorem Plane.rot90_length (p : Plane) : p.rot90.data.length = p.w * p.h := by
  simp [Plane.rot90]

/-- Sample of a rotated plane, in terms of the source plane. -/
theorem Plane.rot90_get (p : Plane) (i : Nat) (hi : i < p.w * p.h) :
    p.rot90.get i = p.get ((p.h - 1 - i % p.h) * p.w + i / p.h) := by
  unfold Plane.rot90 Plane.get
  exact getD_range_map _ _ _ hi

/-- Two clockwise quarter turns reverse the row-major buffer. -/
theorem Plane.rot90_rot90_get (p : Plane) (i : Nat) (hi : i < p.w * p.h) :
    p.rot90.rot90.get i = p.get (p.w * p.h - 1 - i) := by
  have hw : 0 < p.w := by
    rcases Nat.eq_zero_or_pos p.w with h | h
    · simp [h] at hi
    · exact h
  have hh : 0 < p.h := by
    rcases Nat.eq_zero_or_pos p.h with h | h
    · simp [h] at hi
    · exact h
  have hi' : i < p.rot90.w * p.rot90.h := by
    simpa [Plane.rot90_w, Plane.rot90_h, Nat.mul_comm] using hi
  rw [Plane.rot90_get p.rot90 i hi']
  rw [Plane.rot90_w, Plane.rot90_h]
  have hdiv : i / p.w < p.h := Nat.div_lt_of_lt_mul (by simpa [Nat.mul_comm] using hi)
  have hmod : i % p.w < p.w := Nat.mod_lt _ hw
  have hjlt : (p.w - 1 - i % p.w) * p.h + i / p.w < p.w * p.h := by
    have h2 : (p.w - 1 - i % p.w) * p.h ≤ (p.w - 1) * p.h :=
      Nat.mul_le_mul_right _ (Nat.sub_le _ _)
    have h3 : (p.w - 1) * p.h + p.h = p.w * p.h := by
      have h4 : p.w - 1 + 1 = p.w := Nat.succ_pred_eq_of_pos hw
      calc (p.w - 1) * p.h + p.h = (p.w - 1 + 1) * p.h := by ring
        _ = p.w * p.h := by rw [h4]
    calc (p.w - 1 - i % p.w) * p.h + i / p.w
        ≤ (p.w - 1) * p.h + i / p.w := Nat.add_le_add_right h2 _
      _ < (p.w - 1) * p.h + p.h := Nat.add_lt_add_left hdiv _
      _ = p.w * p.h := h3
  rw [Plane.rot90_get p _ hjlt]
  congr 1
  have hjm : ((p.w - 1 - i % p.w) * p.h + i / p.w) % p.h = i / p.w := by
    rw [Nat.mul_comm (p.w - 1 - i % p.w) p.h, Nat.mul_add_mod]
    exact Nat.mod_eq_of_lt hdiv
  have hjd : ((p.w - 1 - i % p.w) * p.h + i / p.w) / p.h = p.w - 1 - i % p.w := by
    rw [Nat.add_comm, Nat.add_mul_div_right _ _ hh, Nat.div_eq_of_lt hdiv]
    exact Nat.zero_add _
  rw [hjm, hjd]
  -- pure index arithmetic: (h-1-q)*w + (w-1-r) = w*h - 1 - i with i = w*q + r
  have hsplit : p.w * (i / p.w) + i % p.w = i := Nat.div_add_mod i p.w
  have hkey : p.w * p.h = (p.h - 1 - i / p.w) * p.w + (i / p.w) * p.w + p.w := by
    have h5 : p.h - 1 - i / p.w + i / p.w + 1 = p.h := by omega
    calc p.w * p.h = p.h * p.w := Nat.mul_comm _ _
      _ = (p.h - 1 - i / p.w + i / p.w + 1) * p.w := by rw [h5]
      _ = (p.h - 1 - i / p.w) * p.w + (i / p.w) * p.w + p.w := by ring
  have hq : p.w * (i / p.w) = (i / p.w) * p.w := Nat.mul_comm _ _
  omega

/-- Four clockwise quarter turns restore a full plane exactly. -/
theorem Plane.rot90_fourfold (p : Plane) (hp : p.wf) :
    p.rot90.rot90.rot90.rot90 = p := by
  have hlen2 : p.rot90.rot90.data.length = p.w * p.h := by
    rw [Plane.rot90_length, Plane.rot90_w, Plane.rot90_h, Nat.mul_comm]
  have hw2 : p.rot90.rot90.w = p.w := rfl
  have hh2 : p.rot90.rot90.h = p.h := rfl
  ext1
  · rfl
  · rfl
  · apply List.ext_getElem
    · simp only [Plane.rot90_length, Plane.rot90_w, Plane.rot90_h]
      rw [hp, Nat.mul_comm]
    · intro i h1 h2
      have hi : i < p.w * p.h := by
        simp only [Plane.rot90_length, Plane.rot90_w, Plane.rot90_h] at h1
        rwa [Nat.mul_comm p.h p.w] at h1
      have e1 : p.rot90.rot90.rot90.rot90.get i
          = p.rot90.rot90.get (p.w * p.h - 1 - i) := by
        have := Plane.rot90_rot90_get p.rot90.rot90 i (by rw [hw2, hh2]; exact hi)
        rwa [hw2, hh2] at this
      have hi2 : p.w * p.h - 1 - i < p.w * p.h := by omega
      have e2 : p.rot90.rot90.get (p.w * p.h - 1 - i)
          = p.get (p.w * p.h - 1 - (p.w * p.h - 1 - i)) :=
        Plane.rot90_rot90_get p _ hi2
      have e3 : p.w * p.h - 1 - (p.w * p.h - 1 - i) = i := by omega
      have egoal : p.rot90.rot90.rot90.rot90.get i = p.get i := by
        rw [e1, e2, e3]
      unfold Plane.get at egoal
      rwa [List.getD_eq_getElem _ _ h1, List.getD_eq_getElem _ _ h2] at egoal

/-- Four clockwise quarter turns restore a frame whose planes carry full
buffers. -/
theorem Frame.rot90_fourfold_planes (f : Frame) (h : ∀ p ∈ f.planes, p.wf) :
    f.rot90.rot90.rot90.rot90 = f := by
  ext1
  · rfl
  · rfl
  · rfl
  · show ((((f.planes.map Plane.rot90).map Plane.rot90).map
      Plane.rot90).map Plane.rot90) = f.planes
    simp only [List.map_map]
    conv_rhs => rw [← List.map_id f.planes]
    apply List.map_congr_left
    intro p hp
    simpa [Function.comp] using Plane.rot90_fourfold p (h p hp)

/-! ### Claim C2: four quarter turns are the identity -/

/-- **C2.** For every well-formed frame of every pixel format, applying the
rotate filter with the 90° angle code four times in succession yields the
original frame back, pixel for pixel (same width, height, format and plane
contents). -/
theorem rotate_four_quarter_turns_id (f : Frame) (hf : f.wf) :
    (video_filter_rotate f 1 >>= fun g1 =>
      video_filter_rotate g1 1 >>= fun g2 =>
        video_filter_rotate g2 1 >>= fun g3 =>
          video_filter_rotate g3 1) = .ok f := by
  have h4 : f.rot90.rot90.rot90.rot90 = f := Frame.rot90_fourfold_planes f hf.2.2.2.2
  calc (video_filter_rotate f 1 >>= fun g1 =>
      video_filter_rotate g1 1 >>= fun g2 =>
        video_filter_rotate g2 1 >>= fun g3 =>
          video_filter_rotate g3 1)
      = Except.ok f.rot90.rot90.rot90.rot90 := rfl
    _ = .ok f := by rw [h4]

/-- Witness for C2 at a concrete well-formed YUV420P frame. -/
theorem rotate_four_quarter_turns_id_witness :
    demoFrameYuv.wf ∧
    (video_filter_rotate demoFrameYuv 1 >>= fun g1 =>
      video_filter_rotate g1 1 >>= fun g2 =>
        video_filter_rotate g2 1 >>= fun g3 =>
          video_filter_rotate g3 1) = .ok demoFrameYuv :=
  ⟨by decide, rotate_four_quarter_turns_id demoFrameYuv (by decide)⟩

/-! ### Claim C6: crop geometry -/

/-- **C6.** Crop succeeds exactly on a nonzero rectangle that lies within
the source bounds, and then the produced frame re-measures to the requested
width and height; otherwise it fails with InvalidArgument. -/
theorem crop_requested_geometry (f : Frame) (x y w h : Nat) :
    (w ≠ 0 → h ≠ 0 → x + w ≤ f.width → y + h ≤ f.height →
      ∃ g, video_filter_crop f x y w h = .ok g ∧
        video_frame_width g = w ∧ video_frame_height g = h) ∧
    (w = 0 ∨ h = 0 ∨ f.width < x + w ∨ f.height < y + h →
      video_filter_crop f x y w h = .error .invalidArgument) := by
  constructor
  · intro hw hh hx hy
    unfold video_filter_crop
    rw [if_neg (by omega)]
    exact ⟨_, rfl, rfl, rfl⟩
  · intro hbad
    unfold video_filter_crop
    rw [if_pos hbad]

/-- Witness for C6: an in-bounds crop of the demo RGB frame measures
exactly 2 × 2, and a zero-width crop is rejected. -/
theorem crop_requested_geometry_witness :
    (∃ g, video_filter_crop demoFrameRgb 1 1 2 2 = .ok g ∧
      video_frame_width g = 2 ∧ video_frame_height g = 2) ∧
    video_filter_crop demoFrameRgb 0 0 0 2 = .error .invalidArgument :=
  ⟨(crop_requested_geometry demoFrameRgb 1 1 2 2).1
      (by decide) (by decide) (by decide) (by decide),
    (crop_requested_geometry demoFrameRgb 0 0 0 2).2 (Or.inl rfl)⟩

/-! ### Claim C4: malformed geometry is rejected without touching the source -/

/-- **C4.** Scale with a zero destination dimension, Crop with a zero
width or height, and Blur with `sigma ≤ 0` each fail with InvalidArgument,
and a failing filter call leaves the store — in particular the source
frame's slot — exactly as it was, so the source stays independently
freeable. -/
theorem invalid_geometry_rejected (f : Frame) (dw dh x y cw ch : Nat) (alg : Int)
    (sigma : ℚ) (s : FrameStore) (i : Nat) :
    (dw = 0 ∨ dh = 0 → video_filter_scale f dw dh alg = .error .invalidArgument) ∧
    (cw = 0 ∨ ch = 0 → video_filter_crop f x y cw ch = .error .invalidArgument) ∧
    (sigma ≤ 0 → video_filter_blur f sigma = .error .invalidArgument) ∧
    (∀ op : FilterOp, s[i]? = some f → runFilter op f = .error .invalidArgument →
      applyFilter s op i = (s, .error .invalidArgument)) := by
  refine ⟨?_, ?_, ?_, ?_⟩
  · intro hz; unfold video_filter_scale; rw [if_pos hz]
  · intro hz; unfold video_filter_crop; rw [if_pos (by tauto)]
  · intro hz; unfold video_filter_blur; rw [if_pos hz]
  · intro op hs hr; simp [applyFilter, hs, hr]

/-- Witness for C4 at concrete inputs: zero-dimension scale and crop and a
zero sigma blur are all rejected, and the failing blur call leaves the
one-frame store unchanged. -/
theorem invalid_geometry_rejected_witness :
    video_filter_scale demoFrameRgb 0 4 0 = .error .invalidArgument ∧
    video_filter_crop demoFrameRgb 0 0 0 2 = .error .invalidArgument ∧
    video_filter_blur demoFrameRgb 0 = .error .invalidArgument ∧
    applyFilter [demoFrameRgb] (.blur 0) 0 = ([demoFrameRgb], .error .invalidArgument) :=
  ⟨(invalid_geometry_rejected demoFrameRgb 0 4 0 0 0 2 0 0 [] 0).1 (Or.inl rfl),
    (invalid_geometry_rejected demoFrameRgb 0 4 0 0 0 2 0 0 [] 0).2.1 (Or.inl rfl),
    (invalid_geometry_rejected demoFrameRgb 0 4 0 0 0 2 0 0 [] 0).2.2.1 le_rfl,
    (invalid_geometry_rejected demoFrameRgb 0 4 0 0 0 2 0 0 [demoFrameRgb] 0).2.2.2
      (.blur 0) rfl
      ((invalid_geometry_rejected demoFrameRgb 0 4 0 0 0 2 0 0 [] 0).2.2.1 le_rfl)⟩

/-! ### Claim C5: filters allocate fresh output and never mutate the store -/

/-- **C5.** Every filter call leaves every existing handle's frame — in
particular the source — untouched, and on success returns a fresh handle,
one past the end of the store, bound to the newly produced output frame of
the pure filter function. -/
theorem filters_allocate_fresh_never_mutate (s : FrameStore) (op : FilterOp) (i : Nat) :
    (∀ j, j < s.length → ((applyFilter s op i).1)[j]? = s[j]?) ∧
    (∀ hnd, (applyFilter s op i).2 = .ok hnd →
      hnd = s.length ∧ ∃ src dst, s[i]? = some src ∧ runFilter op src = .ok dst ∧
        (applyFilter s op i).1 = s ++ [dst]) := by
  constructor
  · intro j hj
    cases hs : s[i]? with
    | none => simp [applyFilter, hs]
    | some f =>
      cases hr : runFilter op f with
      | error e => simp [applyFilter, hs, hr]
      | ok dst => simp [applyFilter, hs, hr, List.getElem?_append_left hj]
  · intro hnd hok
    cases hs : s[i]? with
    | none => simp [applyFilter, hs] at hok
    | some f =>
      cases hr : runFilter op f with
      | error e => simp [applyFilter, hs, hr] at hok
      | ok dst =>
        simp only [applyFilter, hs, hr] at hok ⊢
        simp only [Except.ok.injEq] at hok
        exact ⟨hok.symm, f, dst, rfl, hr, rfl⟩

/-- Witness for C5: a successful grayscale call on a one-frame store keeps
slot 0 intact and allocates the fresh handle 1 bound to the new frame. -/
theorem filters_allocate_fresh_never_mutate_witness :
    ((applyFilter [demoFrameRgb] .grayscale 0).1)[0]? = [demoFrameRgb][0]? ∧
    (1 = [demoFrameRgb].length ∧
      ∃ src dst, [demoFrameRgb][0]? = some src ∧ runFilter .grayscale src = .ok dst ∧
        (applyFilter [demoFrameRgb] .grayscale 0).1 = [demoFrameRgb] ++ [dst]) :=
  ⟨(filters_allocate_fresh_never_mutate [demoFrameRgb] .grayscale 0).1 0 (by decide),
    (filters_allocate_fresh_never_mutate [demoFrameRgb] .grayscale 0).2 1 (by rfl)⟩

/-! ### Claim C3: scaling lemmas -/

theorem Plane.scaleNearest_w (p : Plane) (W H : Nat) : (p.scaleNearest W H).w = W := rfl

theorem Plane.scaleNearest_h (p : Plane) (W H : Nat) : (p.scaleNearest W H).h = H := rfl

theorem Plane.scaleNearest_length (p : Plane) (W H : Nat) :
    (p.scaleNearest W H).data.length = W * H := by
  simp [Plane.scaleNearest]

/-- Sample of a nearest-resampled plane, in terms of the source plane. -/
theorem Plane.scaleNearest_get (p : Plane) (W H i : Nat) (hi : i < W * H) :
    (p.scaleNearest W H).get i
      = p.get ((i / W * p.h / H) * p.w + i % W * p.w / W) := by
  unfold Plane.scaleNearest Plane.get
  exact getD_range_map _ _ _ hi

/-- Nearest-neighbour upscale by an integer factor followed by
nearest-neighbour downscale back to the source grid is the identity on a
full plane. -/
theorem Plane.scaleNearest_roundtrip (p : Plane) (hp : p.wf) (k : Nat)
    (hk : 0 < k) (hw : 0 < p.w) (hh : 0 < p.h) :
    (p.scaleNearest (k * p.w) (k * p.h)).scaleNearest p.w p.h = p := by
  ext1
  · rfl
  · rfl
  · apply List.ext_getElem
    · simp only [Plane.scaleNearest_length, Plane.scaleNearest_w, Plane.scaleNearest_h]
      rw [hp]
    · intro i h1 h2
      have hi : i < p.w * p.h := by
        simpa only [Plane.scaleNearest_length] using h1
      have hr : i / p.w < p.h := Nat.div_lt_of_lt_mul hi
      have hc : i % p.w < p.w := Nat.mod_lt _ hw
      have e1 : ((p.scaleNearest (k * p.w) (k * p.h)).scaleNearest p.w p.h).get i
          = (p.scaleNearest (k * p.w) (k * p.h)).get
              ((i / p.w * (k * p.h) / p.h) * (k * p.w) + i % p.w * (k * p.w) / p.w) :=
        Plane.scaleNearest_get _ _ _ _ hi
      have hrow : i / p.w * (k * p.h) / p.h = i / p.w * k := by
        rw [show i / p.w * (k * p.h) = i / p.w * k * p.h by ring, Nat.mul_div_cancel _ hh]
      have hcol : i % p.w * (k * p.w) / p.w = i % p.w * k := by
        rw [show i % p.w * (k * p.w) = i % p.w * k * p.w by ring, Nat.mul_div_cancel _ hw]
      rw [hrow, hcol] at e1
      have hck : i % p.w * k < k * p.w := by
        calc i % p.w * k < p.w * k := by
              exact Nat.mul_lt_mul_of_pos_right hc hk
          _ = k * p.w := Nat.mul_comm _ _
      have hrk : i / p.w * k < k * p.h := by
        calc i / p.w * k < p.h * k := by
              exact Nat.mul_lt_mul_of_pos_right hr hk
          _ = k * p.h := Nat.mul_comm _ _
      have hjlt : i / p.w * k * (k * p.w) + i % p.w * k < (k * p.w) * (k * p.h) := by
        have h1 : i / p.w * k * (k * p.w) + (k * p.w)
            = (i / p.w * k + 1) * (k * p.w) := by ring
        have h2 : (i / p.w * k + 1) * (k * p.w) ≤ (k * p.h) * (k * p.w) :=
          Nat.mul_le_mul_right _ hrk
        calc i / p.w * k * (k * p.w) + i % p.w * k
            < i / p.w * k * (k * p.w) + (k * p.w) := by omega
          _ = (i / p.w * k + 1) * (k * p.w) := h1
          _ ≤ (k * p.h) * (k * p.w) := h2
          _ = (k * p.w) * (k * p.h) := Nat.mul_comm _ _
      have e2 : (p.scaleNearest (k * p.w) (k * p.h)).get
            (i / p.w * k * (k * p.w) + i % p.w * k)
          = p.get (((i / p.w * k * (k * p.w) + i % p.w * k) / (k * p.w) * p.h / (k * p.h)) * p.w
              + (i / p.w * k * (k * p.w) + i % p.w * k) % (k * p.w) * p.w / (k * p.w)) :=
        Plane.scaleNearest_get _ _ _ _ hjlt
      have hjdiv : (i / p.w * k * (k * p.w) + i % p.w * k) / (k * p.w) = i / p.w * k := by
        rw [show i / p.w * k * (k * p.w) + i % p.w * k
            = (k * p.w) * (i / p.w * k) + i % p.w * k by ring]
        rw [Nat.mul_add_div (Nat.mul_pos hk hw), Nat.div_eq_of_lt hck]
        omega
      have hjmod : (i / p.w * k * (k * p.w) + i % p.w * k) % (k * p.w) = i % p.w * k := by
        rw [show i / p.w * k * (k * p.w) + i % p.w * k
            = (k * p.w) * (i / p.w * k) + i % p.w * k by ring]
        rw [Nat.mul_add_mod]
        exact Nat.mod_eq_of_lt hck
      rw [hjdiv, hjmod] at e2
      have hrow2 : i / p.w * k * p.h / (k * p.h) = i / p.w := by
        rw [show i / p.w * k * p.h = i / p.w * (k * p.h) by ring,
          Nat.mul_div_cancel _ (Nat.mul_pos hk hh)]
      have hcol2 : i % p.w * k * p.w / (k * p.w) = i % p.w := by
        rw [show i % p.w * k * p.w = i % p.w * (k * p.w) by ring,
          Nat.mul_div_cancel _ (Nat.mul_pos hk hw)]
      rw [hrow2, hcol2] at e2
      have hidx : i / p.w * p.w + i % p.w = i := Nat.div_add_mod' i p.w
      rw [hidx] at e2
      have egoal : ((p.scaleNearest (k * p.w) (k * p.h)).scaleNearest p.w p.h).get i
          = p.get i := by rw [e1, e2]
      unfold Plane.get at egoal
      rwa [List.getD_eq_getElem _ _ h1, List.getD_eq_getElem _ _ h2] at egoal

/-- Successful scale call, spelled out. -/
theorem video_filter_scale_ok (f : Frame) (W H : Nat) (a : ScaleAlg) (alg : Int)
    (hW : W ≠ 0) (hH : H ≠ 0) (ha : ScaleAlg.ofCode alg = some a) :
    video_filter_scale f W H alg = .ok
      { width := W
        height := H
        format := f.format
        planes := (f.planes.zip (f.format.planeDims W H)).map
          (fun pq => pq.1.scaleAlg a f.format.channels pq.2.1 pq.2.2) } := by
  unfold video_filter_scale
  rw [if_neg (by tauto), ha]

/-- An integer-ratio nearest up/down chain on one plane, stated with the
target dimensions as separate arguments so it can be applied to both luma
and subsampled chroma planes. -/
theorem scale_chain_entry (p : Plane) (nch : Nat) (hp : p.wf) (k U V tw th : Nat)
    (hk : 0 < k) (hU : U = k * p.w) (hV : V = k * p.h) (htw : tw = p.w)
    (hth : th = p.h) (hw : 0 < p.w) (hh : 0 < p.h) :
    (p.scaleAlg .nearest nch U V).scaleAlg .nearest nch tw th = p := by
  subst hU hV htw hth
  show (p.scaleNearest (k * p.w) (k * p.h)).scaleNearest p.w p.h = p
  exact Plane.scaleNearest_roundtrip p hp k hk hw hh

/-- **C3.** Scaling to any valid dimensions and then scaling back to the
original dimensions restores the original width and height exactly, for
every algorithm pair; and with the Nearest algorithm an integer-ratio
upscale followed by the downscale back to the same grid restores the
original frame, pixel buffer included, exactly. -/
theorem scale_dims_roundtrip_and_nearest_exact
    (f : Frame) (W H : Nat) (alg alg' : Int) (k : Nat)
    (hW : W ≠ 0) (hH : H ≠ 0) (hfw : f.width ≠ 0) (hfh : f.height ≠ 0)
    (halg : (ScaleAlg.ofCode alg).isSome) (halg' : (ScaleAlg.ofCode alg').isSome) :
    (∃ g, (video_filter_scale f W H alg >>= fun g1 =>
        video_filter_scale g1 f.width f.height alg') = .ok g ∧
      video_frame_width g = f.width ∧ video_frame_height g = f.height) ∧
    (f.wf → 0 < k →
      (video_filter_scale f (k * f.width) (k * f.height) 0 >>= fun g1 =>
        video_filter_scale g1 f.width f.height 0) = .ok f) := by
  constructor
  · obtain ⟨a, ha⟩ := Option.isSome_iff_exists.mp halg
    obtain ⟨a', ha'⟩ := Option.isSome_iff_exists.mp halg'
    set G : Frame :=
      { width := W, height := H, format := f.format,
        planes := (f.planes.zip (f.format.planeDims W H)).map
          (fun pq => pq.1.scaleAlg a f.format.channels pq.2.1 pq.2.2) } with hG
    refine ⟨?_, ?_, ?_, ?_⟩
    · exact
        { width := f.width, height := f.height, format := f.format,
          planes := (G.planes.zip (f.format.planeDims f.width f.height)).map
            (fun pq => pq.1.scaleAlg a' f.format.channels pq.2.1 pq.2.2) }
    · rw [video_filter_scale_ok f W H a alg hW hH ha]
      show video_filter_scale G f.width f.height alg' = _
      exact video_filter_scale_ok G f.width f.height a' alg' hfw hfh ha'
    · rfl
    · rfl
  · intro hwf hk
    obtain ⟨hw0, hh0, heven, hlayout, hpl⟩ := hwf
    have hkW : k * f.width ≠ 0 := Nat.mul_ne_zero (by omega) hfw
    have hkH : k * f.height ≠ 0 := Nat.mul_ne_zero (by omega) hfh
    rw [video_filter_scale_ok f (k * f.width) (k * f.height) .nearest 0 hkW hkH rfl]
    show video_filter_scale _ f.width f.height 0 = .ok f
    rw [video_filter_scale_ok _ f.width f.height .nearest 0 hfw hfh rfl]
    apply congrArg Except.ok
    cases hfmt : f.format with
    | rgb24 =>
      rw [hfmt] at hlayout
      have hlen : f.planes.length = 1 := by
        have := congrArg List.length hlayout
        simpa [PixelFormat.planeDims] using this
      obtain ⟨p, hp⟩ := List.length_eq_one.mp hlen
      rw [hp] at hlayout
      simp only [PixelFormat.planeDims, List.map_cons, List.map_nil,
        List.cons.injEq, Prod.mk.injEq, and_true] at hlayout
      obtain ⟨hpw, hph⟩ := hlayout
      have hpwf : p.wf := hpl p (by rw [hp]; simp)
      ext1
      · rfl
      · rfl
      · exact hfmt.symm
      · rw [hp]
        simp only [PixelFormat.planeDims, PixelFormat.channels, List.zip_cons_cons,
          List.zip_nil_right, List.map_cons, List.map_nil]
        rw [scale_chain_entry p 3 hpwf k (k * f.width) (k * f.height) f.width f.height
          hk (by rw [hpw]) (by rw [hph]) hpw.symm hph.symm (by omega) (by omega)]
    | rgba32 =>
      rw [hfmt] at hlayout
      have hlen : f.planes.length = 1 := by
        have := congrArg List.length hlayout
        simpa [PixelFormat.planeDims] using this
      obtain ⟨p, hp⟩ := List.length_eq_one.mp hlen
      rw [hp] at hlayout
      simp only [PixelFormat.planeDims, List.map_cons, List.map_nil,
        List.cons.injEq, Prod.mk.injEq, and_true] at hlayout
      obtain ⟨hpw, hph⟩ := hlayout
      have hpwf : p.wf := hpl p (by rw [hp]; simp)
      ext1
      · rfl
      · rfl
      · exact hfmt.symm
      · rw [hp]
        simp only [PixelFormat.planeDims, PixelFormat.channels, List.zip_cons_cons,
          List.zip_nil_right, List.map_cons, List.map_nil]
        rw [scale_chain_entry p 4 hpwf k (k * f.width) (k * f.height) f.width f.height
          hk (by rw [hpw]) (by rw [hph]) hpw.symm hph.symm (by omega) (by omega)]
    | yuv420p =>
      rw [hfmt] at hlayout heven
      obtain ⟨hev1, hev2⟩ := heven rfl
      obtain ⟨m, hm⟩ : ∃ m, f.width = 2 * m := ⟨f.width / 2, by omega⟩
      obtain ⟨n, hn⟩ : ∃ n, f.height = 2 * n := ⟨f.height / 2, by omega⟩
      have hlen : f.planes.length = 3 := by
        have := congrArg List.length hlayout
        simpa [PixelFormat.planeDims] using this
      obtain ⟨py, pu, pv, hp⟩ := List.length_eq_three.mp hlen
      rw [hp] at hlayout
      simp only [PixelFormat.planeDims, List.map_cons, List.map_nil,
        List.cons.injEq, Prod.mk.injEq, and_true] at hlayout
      obtain ⟨⟨hyw, hyh⟩, ⟨huw, huh⟩, hvw, hvh⟩ := hlayout
      have hywf : py.wf := hpl py (by rw [hp]; simp)
      have huwf : pu.wf := hpl pu (by rw [hp]; simp)
      have hvwf : pv.wf := hpl pv (by rw [hp]; simp)
      have hchw : k * f.width / 2 = k * (f.width / 2) := by
        rw [hm, show k * (2 * m) = k * m * 2 by ring,
          Nat.mul_div_cancel _ (by omega : 0 < 2), show 2 * m / 2 = m by omega]
      have hchh : k * f.height / 2 = k * (f.height / 2) := by
        rw [hn, show k * (2 * n) = k * n * 2 by ring,
          Nat.mul_div_cancel _ (by omega : 0 < 2), show 2 * n / 2 = n by omega]
      ext1
      · rfl
      · rfl
      · exact hfmt.symm
      · rw [hp]
        simp only [PixelFormat.planeDims, PixelFormat.channels, List.zip_cons_cons,
          List.zip_nil_right, List.map_cons, List.map_nil]
        rw [scale_chain_entry py 1 hywf k (k * f.width) (k * f.height) f.width f.height
          hk (by rw [hyw]) (by rw [hyh]) hyw.symm hyh.symm (by omega) (by omega)]
        rw [scale_chain_entry pu 1 huwf k (k * f.width / 2) (k * f.height / 2)
          (f.width / 2) (f.height / 2) hk (by rw [huw, hchw]) (by rw [huh, hchh])
          huw.symm huh.symm (by omega) (by omega)]
        rw [scale_chain_entry pv 1 hvwf k (k * f.width / 2) (k * f.height / 2)
          (f.width / 2) (f.height / 2) hk (by rw [hvw, hchw]) (by rw [hvh, hchh])
          hvw.symm hvh.symm (by omega) (by omega)]

/-! ### Claim C10: the error enumeration -/

/-- **C10.** In `video_error_t`, success is the single value 0 (`VIDEO_OK`)
and every failure code is a distinct strictly negative integer
(`VIDEO_INVALID_ARGUMENT = -1` through `VIDEO_IO_ERROR = -8`,
`VIDEO_UNKNOWN_ERROR = -999`); hence a call returning `video_error_t`
succeeded if and only if its return value is 0. -/
theorem error_code_zero_iff_ok :
    VideoError.toInt .ok = 0 ∧
    (∀ e : VideoError, e ≠ .ok → VideoError.toInt e < 0) ∧
    (∀ e e' : VideoError, VideoError.toInt e = VideoError.toInt e' → e = e') ∧
    (∀ e : VideoError, e = .ok ↔ VideoError.toInt e = 0) ∧
    VideoError.toInt .invalidArgument = -1 ∧ VideoError.toInt .outOfMemory = -2 ∧
    VideoError.toInt .fileNotFound = -3 ∧ VideoError.toInt .invalidFormat = -4 ∧
    VideoError.toInt .unsupportedCodec = -5 ∧ VideoError.toInt .decodeError = -6 ∧
    VideoError.toInt .encodeError = -7 ∧ VideoError.toInt .ioError = -8 ∧
    VideoError.toInt .unknownError = -999 := by
  decide

/-! ### Claim C9: thumbnail clamping -/

/-- Every timestamp of a strictly increasing stream is at most the last
one. -/
theorem mem_timestamp_le_getLast (l : List (Int × Frame)) :
    l.Pairwise (fun a b : Int × Frame => a.1 < b.1) →
    ∀ (hne : l ≠ []) (x : Int × Frame), x ∈ l → x.1 ≤ (l.getLast hne).1 := by
  induction l with
  | nil => intro _ hne; exact absurd rfl hne
  | cons e rest ih =>
    intro hp hne x hx
    cases rest with
    | nil =>
      rcases List.mem_cons.mp hx with rfl | hx2
      · exact le_refl _
      · exact absurd hx2 (List.not_mem_nil x)
    | cons e2 rest2 =>
      have hrest : (e2 :: rest2 : List (Int × Frame)) ≠ [] := by simp
      rw [List.getLast_cons hrest]
      rcases List.mem_cons.mp hx with rfl | hx2
      · have h1 : x.1 < e2.1 := (List.pairwise_cons.mp hp).1 e2 (by simp)
        have h2 : e2.1 ≤ ((e2 :: rest2).getLast hrest).1 :=
          ih (List.Pairwise.of_cons hp) hrest e2 (by simp)
        omega
      · exact ih (List.Pairwise.of_cons hp) hrest x hx2
/-- When the target timestamp lies at or beyond every frame of a strictly
increasing stream, the nearest frame is the last one. -/
theorem nearestFrame_beyond (ts : Int) (l : List (Int × Frame)) :
    l.Pairwise (fun a b : Int × Frame => a.1 < b.1) →
    (∀ x ∈ l, x.1 ≤ ts) →
    ∀ (hne : l ≠ []), nearestFrame ts l = some (l.getLast hne) := by
  induction l with
  | nil => intro _ _ hne; exact absurd rfl hne
  | cons e rest ih =>
    intro hp hts hne
    cases rest with
    | nil => rfl
    | cons e2 rest2 =>
      have hrest : (e2 :: rest2 : List (Int × Frame)) ≠ [] := by simp
      have hr := ih (List.Pairwise.of_cons hp)
        (fun x hx => hts x (List.mem_cons_of_mem _ hx)) hrest
      have hstep : nearestFrame ts (e :: e2 :: rest2)
          = match nearestFrame ts (e2 :: rest2) with
            | none => some e
            | some b => if |ts - e.1| < |ts - b.1| then some e else some b := rfl
      rw [hstep, hr, List.getLast_cons hrest]
      show (if |ts - e.1| < |ts - ((e2 :: rest2).getLast hrest).1| then some e
          else some ((e2 :: rest2).getLast hrest))
        = some ((e2 :: rest2).getLast hrest)
      have hble : e.1 ≤ ((e2 :: rest2).getLast hrest).1 := by
        have h1 : e.1 < e2.1 := (List.pairwise_cons.mp hp).1 e2 (by simp)
        have h2 : e2.1 ≤ ((e2 :: rest2).getLast hrest).1 :=
          mem_timestamp_le_getLast _ (List.Pairwise.of_cons hp) hrest e2 (by simp)
        omega
      have hets : e.1 ≤ ts := hts e (by simp)
      have hbts : ((e2 :: rest2).getLast hrest).1 ≤ ts :=
        hts _ (List.mem_cons_of_mem _ (List.getLast_mem hrest))
      have habs : ¬ |ts - e.1| < |ts - ((e2 :: rest2).getLast hrest).1| := by
        rw [abs_of_nonneg (by omega), abs_of_nonneg (by omega)]
        omega
      rw [if_neg habs]

/-- **C9.** On a nonempty decoded stream with strictly increasing
timestamps, extraction at a timestamp at or beyond the whole stream does
not fail: it returns the last decodable frame scaled to the requested
width and height. -/
theorem thumbnail_clamps_beyond_duration
    (stream : List (Int × Frame)) (ts : Int) (w h : Nat) (hne : stream ≠ [])
    (hsorted : stream.Pairwise (fun a b : Int × Frame => a.1 < b.1))
    (hts : ∀ x ∈ stream, x.1 ≤ ts) (hw : w ≠ 0) (hh : h ≠ 0) :
    ∃ g, video_thumbnail_extract stream ts w h = .ok g ∧
      video_frame_width g = w ∧ video_frame_height g = h ∧
      video_filter_scale (stream.getLast hne).2 w h 1 = .ok g := by
  unfold video_thumbnail_extract
  simp only [nearestFrame_beyond ts stream hsorted hts hne]
  exact ⟨_, video_filter_scale_ok _ w h .bilinear 1 hw hh rfl, rfl, rfl,
    video_filter_scale_ok _ w h .bilinear 1 hw hh rfl⟩

/-- Witness for C9: a timestamp far past the two-frame demo stream still
succeeds and yields the last frame scaled to 2 × 2. -/
theorem thumbnail_clamps_beyond_duration_witness :
    ∃ g, video_thumbnail_extract demoStream 5000000 2 2 = .ok g ∧
      video_frame_width g = 2 ∧ video_frame_height g = 2 ∧
      video_filter_scale (demoStream.getLast (by decide)).2 2 2 1 = .ok g :=
  thumbnail_clamps_beyond_duration demoStream 5000000 2 2 (by decide) (by decide)
    (by decide) (by decide) (by decide)

/-! ### Claim C7: best-effort SRT parsing -/

/-- The block scan collects exactly the parses of the valid blocks, in
input order, and counts exactly the malformed blocks. -/
theorem parseBlocksLoop_spec (l : List (List (List Char))) :
    parseBlocksLoop l = (l.filterMap parseBlock,
      (l.filter (fun b => (parseBlock b).isNone)).length) := by
  induction l with
  | nil => rfl
  | cons b bs ih =>
    simp only [parseBlocksLoop, ih]
    cases hb : parseBlock b <;> simp [List.filterMap_cons, hb]

/-- **C7.** ParseSRT skips and counts each malformed blank-line-delimited
block and keeps the remaining cues in input order (the valid blocks'
parses, in block order); it fails — and fails with InvalidFormat — exactly
when zero valid cues result from the whole input. -/
theorem parse_srt_best_effort (d : List Char) :
    (parseBlocksLoop (blocksOf d)).2
      = ((blocksOf d).filter (fun b => (parseBlock b).isNone)).length ∧
    (∀ cs, video_subtitle_parse_srt d = .ok cs →
      cs = (blocksOf d).filterMap parseBlock) ∧
    (video_subtitle_parse_srt d = .error .invalidFormat ↔
      (blocksOf d).filterMap parseBlock = []) ∧
    (∀ e, video_subtitle_parse_srt d = .error e → e = .invalidFormat) := by
  have hspec := parseBlocksLoop_spec (blocksOf d)
  unfold video_subtitle_parse_srt
  rw [hspec]
  by_cases he : (blocksOf d).filterMap parseBlock = []
  · simp [he, hspec]
  · simp [he, hspec, List.isEmpty_iff]

/-- Witness for C7 at the spec's own two-cue sample: the parse succeeds
with exactly the two cues, and they are the valid blocks' parses in
order. -/
theorem parse_srt_best_effort_witness :
    video_subtitle_parse_srt demoSrt =
      .ok [⟨1, 1000, 2500, [("Hello".toList)]⟩, ⟨2, 3000, 4000, [("World".toList)]⟩] ∧
    ([⟨1, 1000, 2500, [("Hello".toList)]⟩, ⟨2, 3000, 4000, [("World".toList)]⟩] : List Cue)
      = (blocksOf demoSrt).filterMap parseBlock :=
  ⟨rfl, (parse_srt_best_effort demoSrt).2.1 _ rfl⟩

/-! ### Claim C8: SRT-to-VTT conversion -/

/-- **C8.** SrtToVtt succeeds exactly when ParseSRT succeeds, emitting the
WebVTT header followed by the parsed cues in the same order with the
period millisecond separator; when ParseSRT fails it fails with
InvalidFormat. -/
theorem srt_to_vtt_converts (d : List Char) :
    (∀ cs, video_subtitle_parse_srt d = .ok cs →
      video_subtitle_srt_to_vtt d
        = .ok (vttHeader ++ (cs.map (fun c => '\n' :: renderCueVtt c)).flatten)) ∧
    (∀ e, video_subtitle_parse_srt d = .error e →
      video_subtitle_srt_to_vtt d = .error .invalidFormat) := by
  constructor
  · intro cs hcs
    unfold video_subtitle_srt_to_vtt
    rw [hcs]
    rfl
  · intro e he
    unfold video_subtitle_srt_to_vtt
    rw [he]

/-- Witness for C8 at the spec's two-cue sample, whose conversion is the
exact WebVTT document stated in the spec, with `00:00:01.000 -->
00:00:02.500` and `00:00:03.000 --> 00:00:04.000`. -/
theorem srt_to_vtt_converts_witness :
    video_subtitle_srt_to_vtt demoSrt = .ok
      (("WEBVTT\n\n1\n00:00:01.000 --> 00:00:02.500\nHello\n\n2\n00:00:03.000 --> 00:00:04.000\nWorld\n").toList) ∧
    video_subtitle_srt_to_vtt demoSrt = .ok (vttHeader ++
      (([⟨1, 1000, 2500, [("Hello".toList)]⟩,
         ⟨2, 3000, 4000, [("World".toList)]⟩] : List Cue).map
        (fun c => '\n' :: renderCueVtt c)).flatten) :=
  ⟨rfl, (srt_to_vtt_converts demoSrt).1 _ rfl⟩

/-! ### Claim C1: WAV load/save round trip -/

theorem encodeSamples_length (l : List Int) :
    (encodeSamples l).length = 2 * l.length := by
  induction l with
  | nil => rfl
  | cons s rest ih =>
    simp only [encodeSamples, le16, List.cons_append, List.nil_append,
      List.length_cons, ih]
    omega

theorem readU16_le16 (n : Nat) (h : n < 65536) :
    readU16 (n % 256) (n / 256 % 256) = n := by
  unfold readU16
  omega

theorem readU32_le32 (n : Nat) (h : n < 4294967296) :
    readU32 (n % 256) (n / 256 % 256) (n / 65536 % 256) (n / 16777216 % 256) = n := by
  unfold readU32
  omega

theorem u16_round (s : Int) (h1 : -32768 ≤ s) (h2 : s < 32768) :
    u16ToSample (sampleToU16 s) = s := by
  unfold sampleToU16 u16ToSample
  split <;> omega

theorem u16ToSample_range (u : Nat) (hu : u < 65536) :
    -32768 ≤ u16ToSample u ∧ u16ToSample u < 32768 := by
  unfold u16ToSample
  split <;> omega

theorem decodeSamples_encodeSamples (l : List Int)
    (h : ∀ s ∈ l, -32768 ≤ s ∧ s < 32768) :
    decodeSamples (encodeSamples l) = some l := by
  induction l with
  | nil => rfl
  | cons s rest ih =>
    have hs := h s (by simp)
    have hu : sampleToU16 s < 65536 := by unfold sampleToU16; omega
    show decodeSamples (sampleToU16 s % 256 :: sampleToU16 s / 256 % 256 ::
      encodeSamples rest) = _
    simp only [decodeSamples]
    rw [if_pos ⟨Nat.mod_lt _ (by omega), Nat.mod_lt _ (by omega)⟩]
    rw [ih (fun x hx => h x (by simp [hx]))]
    simp only [Option.map_some']
    rw [readU16_le16 _ hu, u16_round s hs.1 hs.2]

theorem decodeSamples_inv (d : List Nat) :
    ∀ l, decodeSamples d = some l →
      d.length = 2 * l.length ∧ ∀ s ∈ l, -32768 ≤ s ∧ s < 32768 := by
  induction d using decodeSamples.induct with
  | case1 =>
    intro l h
    simp only [decodeSamples, Option.some.injEq] at h
    subst h
    simp
  | case2 b =>
    intro l h
    simp [decodeSamples] at h
  | case3 b0 b1 rest hb ih =>
    intro l h
    simp only [decodeSamples, if_pos hb] at h
    obtain ⟨l', hl', rfl⟩ := Option.map_eq_some'.mp h
    obtain ⟨hlen, hrange⟩ := ih l' hl'
    constructor
    · simp only [List.length_cons]
      omega
    · intro s hs
      rcases List.mem_cons.mp hs with rfl | hs2
      · exact u16ToSample_range _ (by unfold readU16; omega)
      · exact hrange s hs2
  | case4 b0 b1 rest hb =>
    intro l h
    simp [decodeSamples, if_neg hb] at h

/-- Every buffer produced by the WAV parser is well formed. -/
theorem decodeWav_wf (d : List Nat) (a : AudioBuffer) (h : decodeWav d = some a) :
    a.wf := by
  unfold decodeWav at h
  split_ifs at h with hC
  obtain ⟨hl44, hmagic, hfb, hsz⟩ := hC
  obtain ⟨hsz1, hsz2, hsz3, hsz4, hsz5, hsz6, hsz7, hsz8⟩ := hsz
  obtain ⟨ss, hss, rfl⟩ := Option.map_eq_some'.mp h
  obtain ⟨hlen, hrange⟩ := decodeSamples_inv _ ss hss
  rw [List.length_drop] at hlen
  refine ⟨hsz7, hsz5, hsz6, ?_, hrange, ?_, ?_⟩
  · show ss.length % wavChannels d = 0
    obtain ⟨q, hq⟩ := Nat.dvd_of_mod_eq_zero hsz8
    have hq2 : wavChannels d * 2 * q = 2 * (wavChannels d * q) := by ring
    have hsl : ss.length = wavChannels d * q := by omega
    rw [hsl, Nat.mul_mod_right]
  · show 36 + 2 * ss.length < 4294967296
    unfold wavFieldBytesOk at hfb
    simp only [readU32] at hsz1
    omega
  · show wavRate d * wavChannels d * 2 < 4294967296
    rw [← hsz3]
    unfold wavFieldBytesOk at hfb
    simp only [readU32]
    omega

set_option maxHeartbeats 3000000 in
/-- Parsing the WAV image of a well-formed buffer recovers the buffer
exactly. -/
theorem decodeWav_encodeWav (a : AudioBuffer) (ha : a.wf) :
    decodeWav (encodeWav a) = some a := by
  obtain ⟨h1, h2, h3, h4, h5, h6, h7⟩ := ha
  have hlen : (encodeSamples a.samples).length = 2 * a.samples.length :=
    encodeSamples_length _
  have hrlt : a.sampleRate < 4294967296 := by
    have t1 : a.sampleRate * 1 ≤ a.sampleRate * a.channels :=
      Nat.mul_le_mul (le_refl _) h2
    have t2 : a.sampleRate * a.channels * 1 ≤ a.sampleRate * a.channels * 2 :=
      Nat.mul_le_mul (le_refl _) (by omega)
    omega
  have e4 : hdrByte (encodeWav a) 4
      = (36 + (encodeSamples a.samples).length) % 256 := rfl
  have e5 : hdrByte (encodeWav a) 5
      = (36 + (encodeSamples a.samples).length) / 256 % 256 := rfl
  have e6 : hdrByte (encodeWav a) 6
      = (36 + (encodeSamples a.samples).length) / 65536 % 256 := rfl
  have e7 : hdrByte (encodeWav a) 7
      = (36 + (encodeSamples a.samples).length) / 16777216 % 256 := rfl
  have e22 : hdrByte (encodeWav a) 22 = a.channels % 256 := rfl
  have e23 : hdrByte (encodeWav a) 23 = a.channels / 256 % 256 := rfl
  have e24 : hdrByte (encodeWav a) 24 = a.sampleRate % 256 := rfl
  have e25 : hdrByte (encodeWav a) 25 = a.sampleRate / 256 % 256 := rfl
  have e26 : hdrByte (encodeWav a) 26 = a.sampleRate / 65536 % 256 := rfl
  have e27 : hdrByte (encodeWav a) 27 = a.sampleRate / 16777216 % 256 := rfl
  have e28 : hdrByte (encodeWav a) 28 = a.sampleRate * a.channels * 2 % 256 := rfl
  have e29 : hdrByte (encodeWav a) 29
      = a.sampleRate * a.channels * 2 / 256 % 256 := rfl
  have e30 : hdrByte (encodeWav a) 30
      = a.sampleRate * a.channels * 2 / 65536 % 256 := rfl
  have e31 : hdrByte (encodeWav a) 31
      = a.sampleRate * a.channels * 2 / 16777216 % 256 := rfl
  have e32 : hdrByte (encodeWav a) 32 = a.channels * 2 % 256 := rfl
  have e33 : hdrByte (encodeWav a) 33 = a.channels * 2 / 256 % 256 := rfl
  have e40 : hdrByte (encodeWav a) 40 = (encodeSamples a.samples).length % 256 := rfl
  have e41 : hdrByte (encodeWav a) 41
      = (encodeSamples a.samples).length / 256 % 256 := rfl
  have e42 : hdrByte (encodeWav a) 42
      = (encodeSamples a.samples).length / 65536 % 256 := rfl
  have e43 : hdrByte (encodeWav a) 43
      = (encodeSamples a.samples).length / 16777216 % 256 := rfl
  have hh44 : (wavHeaderBytes a).length = 44 := rfl
  have edrop : (encodeWav a).drop 44 = encodeSamples a.samples := by
    show (wavHeaderBytes a ++ encodeSamples a.samples).drop 44 = _
    rw [← hh44, List.drop_left]
  have elen : (encodeWav a).length = 44 + (encodeSamples a.samples).length := by
    show (wavHeaderBytes a ++ encodeSamples a.samples).length = _
    rw [List.length_append, hh44]
  have hch : wavChannels (encodeWav a) = a.channels := by
    unfold wavChannels
    rw [e22, e23]
    exact readU16_le16 _ (by omega)
  have hrate : wavRate (encodeWav a) = a.sampleRate := by
    unfold wavRate
    rw [e24, e25, e26, e27]
    exact readU32_le32 _ hrlt
  unfold decodeWav
  rw [if_pos]
  · rw [edrop, decodeSamples_encodeSamples a.samples h5]
    simp only [Option.map_some']
    rw [hch, hrate]
  · refine ⟨?_, ?_, ?_, ?_⟩
    · rw [elen]; omega
    · exact ⟨rfl, rfl, rfl, rfl, rfl, rfl, rfl, rfl, rfl, rfl, rfl, rfl,
        rfl, rfl, rfl, rfl, rfl, rfl, rfl, rfl, rfl, rfl, rfl, rfl⟩
    · unfold wavFieldBytesOk
      simp only [e4, e5, e6, e7, e22, e23, e24, e25, e26, e27, e28, e29, e30,
        e31, e32, e33, e40, e41, e42, e43]
      omega
    · unfold wavSizesOk
      simp only [e4, e5, e6, e7, e28, e29, e30, e31, e32, e33, e40, e41, e42,
        e43, hch, hrate, elen]
      refine ⟨?_, ?_, ?_, ?_, ?_, ?_, ?_, ?_⟩
      · rw [readU32_le32 _ (by omega)]; omega
      · rw [readU32_le32 _ (by omega)]; omega
      · rw [readU32_le32 _ h7]
      · rw [readU16_le16 _ (by omega)]
      · exact h2
      · exact h3
      · exact h1
      · have h44 : 44 + (encodeSamples a.samples).length - 44
            = (encodeSamples a.samples).length := by omega
        rw [h44]
        obtain ⟨q, hq⟩ := Nat.dvd_of_mod_eq_zero h4
        have hLq : (encodeSamples a.samples).length = a.channels * 2 * q := by
          rw [hlen, hq]; ring
        rw [hLq, Nat.mul_mod_right]

/-- **C1.** A buffer loaded from a WAV image, saved right back as WAV and
re-loaded, reproduces the original exactly: same per-channel sample count,
sample rate, channel count, and every sample value. -/
theorem wav_load_save_roundtrip (d : List Nat) (a : AudioBuffer)
    (h : video_audio_load d = .ok a) :
    video_audio_load (video_audio_save a) = .ok a ∧
    ∀ a2, video_audio_load (video_audio_save a) = .ok a2 →
      video_audio_total_samples a2 = video_audio_total_samples a ∧
      video_audio_sample_rate a2 = video_audio_sample_rate a ∧
      video_audio_channels a2 = video_audio_channels a ∧
      a2.samples = a.samples := by
  have hd : decodeWav d = some a := by
    unfold video_audio_load at h
    cases hdw : decodeWav d with
    | none => rw [hdw] at h; simp at h
    | some b =>
      rw [hdw] at h
      simp only [Except.ok.injEq] at h
      rw [h]
  have hwf := decodeWav_wf d a hd
  have henc := decodeWav_encodeWav a hwf
  have hload : video_audio_load (video_audio_save a) = .ok a := by
    unfold video_audio_load video_audio_save
    rw [henc]
  refine ⟨hload, fun a2 h2 => ?_⟩
  rw [hload] at h2
  simp only [Except.ok.injEq] at h2
  subst h2
  exact ⟨rfl, rfl, rfl, rfl⟩

set_option maxHeartbeats 2000000 in
/-- Witness for C1: a concrete 48-byte mono WAV image loads, and saving
the loaded buffer back reproduces it exactly. -/
theorem wav_load_save_roundtrip_witness :
    video_audio_load demoWavBytes = .ok ⟨8000, 1, [0, -1]⟩ ∧
    video_audio_load (video_audio_save (⟨8000, 1, [0, -1]⟩ : AudioBuffer))
      = .ok ⟨8000, 1, [0, -1]⟩ :=
  ⟨by rfl, (wav_load_save_roundtrip demoWavBytes ⟨8000, 1, [0, -1]⟩ (by rfl)).1⟩

/-- Witness for C3: scaling the demo YUV frame to 3 × 5 and back keeps its
dimensions, and the ×3 nearest up/down chain reproduces it exactly. -/
theorem scale_dims_roundtrip_and_nearest_exact_witness :
    (∃ g, (video_filter_scale demoFrameYuv 3 5 1 >>= fun g1 =>
        video_filter_scale g1 demoFrameYuv.width demoFrameYuv.height 2) = .ok g ∧
      video_frame_width g = demoFrameYuv.width ∧
      video_frame_height g = demoFrameYuv.height) ∧
    (video_filter_scale demoFrameYuv (3 * demoFrameYuv.width)
        (3 * demoFrameYuv.height) 0 >>= fun g1 =>
      video_filter_scale g1 demoFrameYuv.width demoFrameYuv.height 0)
      = .ok demoFrameYuv :=
  ⟨(scale_dims_roundtrip_and_nearest_exact demoFrameYuv 3 5 1 2 3 (by decide)
      (by decide) (by decide) (by decide) (by decide) (by decide)).1,
    (scale_dims_roundtrip_and_nearest_exact demoFrameYuv 3 5 1 2 3 (by decide)
      (by decide) (by decide) (by decide) (by decide) (by decide)).2
      (by decide) (by decide)⟩
